import Mathlib

/-!
Shallow embedding of the family-shared grocery inventory backend
(Express + Prisma controllers) and proofs about its core invariants:
merge-on-add, tenant isolation, single-family membership, order
validation, notification read tracking, soft delete, partial update
and expiry classification.

The database is modelled as lists of rows; each controller handler is a
pure function from a request, the authenticated user id, fresh row ids
and the current clock to a response together with the next database
state.  Prisma `findFirst` is `List.find?`, `create` appends a row,
`update where id` maps over the rows with the matching id, and
case-insensitive matching is comparison of lowercased strings.
-/

namespace Documentum

/-- Family row: id, display name, invite code and owning user. -/
structure Family where
  id : String
  name : String
  inviteCode : String
  ownerId : String
deriving DecidableEq

/-- FamilyMember row linking a user to a family with a role. -/
structure FamilyMember where
  familyId : String
  userId : String
  role : String
  isActive : Bool
deriving DecidableEq

/-- InventoryItem row.  Dates and timestamps are day / tick counts;
JavaScript numbers are modelled as rationals. -/
structure InventoryItem where
  id : String
  familyId : String
  name : String
  quantity : Rat
  unit : String
  category : String
  barcode : Option String
  expiryDate : Option Int
  imageUrl : Option String
  notes : Option String
  addedBy : String
  isActive : Bool
  createdAt : Nat
  updatedAt : Nat
deriving DecidableEq

/-- Merchant row (only the fields the order flow consults). -/
structure Merchant where
  id : String
  familyId : String
  name : String
  mtype : String
  isActive : Bool
deriving DecidableEq

/-- OrderItem row: a name snapshot plus quantity/unit/notes and an
optional back-reference to the originating inventory item. -/
structure OrderItem where
  name : String
  quantity : Rat
  unit : String
  notes : Option String
  inventoryItemId : Option String
deriving DecidableEq

/-- Order row with its nested OrderItem children (they are created
together by a single nested `create`). -/
structure Order where
  id : String
  familyId : String
  merchantId : Option String
  status : String
  notes : Option String
  createdBy : String
  items : List OrderItem
  createdAt : Nat
  completedAt : Option Nat
deriving DecidableEq

/-- Notification row: family-scoped broadcast with a recipient set. -/
structure Notification where
  id : String
  familyId : String
  ntype : String
  title : String
  message : String
  recipients : List String
  sentAt : Nat
deriving DecidableEq

/-- NotificationRead row keyed by (notificationId, userId). -/
structure NotificationRead where
  notificationId : String
  userId : String
  readAt : Nat
deriving DecidableEq

/-- The whole database state. -/
structure DB where
  families : List Family
  members : List FamilyMember
  items : List InventoryItem
  merchants : List Merchant
  orders : List Order
  notifs : List Notification
  reads : List NotificationRead
deriving DecidableEq

/-- Error outcomes of the handlers (HTTP status plus message collapsed
into a taxonomy). -/
inductive ApiError where
  | validation
  | notPartOfFamily
  | alreadyMember
  | invalidInviteCode
  | notFound
  | forbidden
deriving DecidableEq

/-- The membership lookup every handler performs first:
`prisma.familyMember.findFirst({ where: { userId } })`.  Note that the
controllers do not filter on `isActive` here. -/
def resolveMember (db : DB) (userId : String) : Option FamilyMember :=
  db.members.find? (fun m => m.userId == userId)

/-! ## Inventory Ledger -/

/-- Request body of `POST /inventory`. -/
structure AddItemReq where
  name : String
  quantity : Rat
  unit : Option String
  category : String
  barcode : Option String
  expiryDate : Option Int
  imageUrl : Option String
  notes : Option String
deriving DecidableEq

/-- express-validator checks on `POST /inventory`: name length 1..200
and non-negative quantity. -/
def validAddItemReq (r : AddItemReq) : Bool :=
  decide (1 ≤ r.name.length) && decide (r.name.length ≤ 200) && decide (0 ≤ r.quantity)

/-- The duplicate lookup of the add handler: same family, name equal
case-insensitively, active. -/
def dupMatch (familyId name : String) (it : InventoryItem) : Bool :=
  it.familyId == familyId && it.name.toLower == name.toLower && it.isActive

/-- Success payload of `POST /inventory`. -/
structure AddItemOk where
  item : InventoryItem
  isDuplicate : Bool
  previousQuantity : Rat
deriving DecidableEq

/-- The `POST /inventory` handler: resolve the caller's family, look up
an active case-insensitive duplicate; merge quantities into it if found,
otherwise create a fresh active item credited to the caller. -/
def addItem (db : DB) (userId newId : String) (r : AddItemReq) (now : Nat) :
    Except ApiError AddItemOk × DB :=
  if !validAddItemReq r then (.error .validation, db)
  else
    match resolveMember db userId with
    | none => (.error .notPartOfFamily, db)
    | some fm =>
      match db.items.find? (dupMatch fm.familyId r.name) with
      | some ex =>
        (.ok ⟨{ ex with quantity := ex.quantity + r.quantity, updatedAt := now },
              true, ex.quantity⟩,
         { db with items := db.items.map (fun it =>
             if it.id == ex.id then
               { it with quantity := ex.quantity + r.quantity, updatedAt := now }
             else it) })
      | none =>
        let item : InventoryItem :=
          { id := newId, familyId := fm.familyId, name := r.name, quantity := r.quantity,
            unit := r.unit.getD "pieces", category := r.category, barcode := r.barcode,
            expiryDate := r.expiryDate, imageUrl := r.imageUrl, notes := r.notes,
            addedBy := userId, isActive := true, createdAt := now, updatedAt := now }
        (.ok ⟨item, false, 0⟩, { db with items := db.items ++ [item] })

/-- Request body of `PATCH /inventory/:itemId`; `some` means the field
was present in the request body. -/
structure UpdateItemReq where
  quantity : Option Rat
  expiryDate : Option (Option Int)
  name : Option String
  category : Option String
  notes : Option String
deriving DecidableEq

/-- express-validator checks on `PATCH /inventory/:itemId`. -/
def validUpdateItemReq (r : UpdateItemReq) : Bool :=
  (match r.quantity with | none => true | some q => decide (0 ≤ q)) &&
  (match r.name with
   | none => true
   | some s => decide (1 ≤ s.length) && decide (s.length ≤ 200))

/-- `Object.keys(updateData)`: the provided fields, in the order the
handler inserts them. -/
def updKeys (r : UpdateItemReq) : List String :=
  (if r.quantity.isSome then ["quantity"] else []) ++
  (if r.expiryDate.isSome then ["expiryDate"] else []) ++
  (if r.name.isSome then ["name"] else []) ++
  (if r.category.isSome then ["category"] else []) ++
  (if r.notes.isSome then ["notes"] else [])

/-- Apply the provided fields of an update request to a row and bump
`updatedAt`. -/
def applyUpd (r : UpdateItemReq) (now : Nat) (it : InventoryItem) : InventoryItem :=
  { it with
    quantity := r.quantity.getD it.quantity,
    expiryDate := match r.expiryDate with | none => it.expiryDate | some e => e,
    name := r.name.getD it.name,
    category := r.category.getD it.category,
    notes := match r.notes with | none => it.notes | some s => some s,
    updatedAt := now }

/-- The lookup guarding update and delete: item with the given id in the
caller's family and still active. -/
def activeItemMatch (familyId itemId : String) (it : InventoryItem) : Bool :=
  it.id == itemId && it.familyId == familyId && it.isActive

/-- The `PATCH /inventory/:itemId` handler. -/
def updateItem (db : DB) (userId itemId : String) (r : UpdateItemReq) (now : Nat) :
    Except ApiError (InventoryItem × List String) × DB :=
  if !validUpdateItemReq r then (.error .validation, db)
  else
    match resolveMember db userId with
    | none => (.error .notPartOfFamily, db)
    | some fm =>
      match db.items.find? (activeItemMatch fm.familyId itemId) with
      | none => (.error .notFound, db)
      | some ex =>
        (.ok (applyUpd r now ex, updKeys r),
         { db with items := db.items.map (fun it =>
             if it.id == itemId then applyUpd r now it else it) })

/-- The `DELETE /inventory/:itemId` handler: soft delete only. -/
def deleteItem (db : DB) (userId itemId : String) (now : Nat) :
    Except ApiError Unit × DB :=
  match resolveMember db userId with
  | none => (.error .notPartOfFamily, db)
  | some fm =>
    match db.items.find? (activeItemMatch fm.familyId itemId) with
    | none => (.error .notFound, db)
    | some _ =>
      (.ok (), { db with items := db.items.map (fun it =>
          if it.id == itemId then { it with isActive := false, updatedAt := now } else it) })

/-- Query of `GET /inventory`. -/
structure ListReq where
  page : Nat
  limit : Nat
  category : Option String
  search : Option String
  sortBy : String
  sortOrder : String
deriving DecidableEq

/-- express-validator checks on `GET /inventory`. -/
def validListReq (q : ListReq) : Bool :=
  decide (1 ≤ q.page) && decide (1 ≤ q.limit) && decide (q.limit ≤ 100) &&
  ["name", "quantity", "expiryDate", "dateAdded"].contains q.sortBy &&
  ["asc", "desc"].contains q.sortOrder

/-- Case-insensitive substring match (Prisma `contains` with
`mode: 'insensitive'`). -/
def containsCI (name search : String) : Bool :=
  let n := name.toLower.toList
  let s := search.toLower.toList
  (List.range (n.length + 1)).any (fun i => ((n.drop i).take s.length) == s)

/-- Ascending comparison on the requested sort field; a null expiry
date sorts as larger than any set date. -/
def fieldLe (sortBy : String) (a b : InventoryItem) : Bool :=
  if sortBy == "quantity" then decide (a.quantity ≤ b.quantity)
  else if sortBy == "expiryDate" then
    match a.expiryDate, b.expiryDate with
    | some x, some y => decide (x ≤ y)
    | some _, none => true
    | none, some _ => false
    | none, none => true
  else if sortBy == "dateAdded" then decide (a.createdAt ≤ b.createdAt)
  else decide (a.name ≤ b.name)

/-- Comparison including the requested direction. -/
def itemLe (sortBy sortOrder : String) (a b : InventoryItem) : Bool :=
  if sortOrder == "desc" then fieldLe sortBy b a else fieldLe sortBy a b

/-- Row filter of `GET /inventory`: caller's family, active, optional
category equality and case-insensitive name search. -/
def listMatch (familyId : String) (q : ListReq) (it : InventoryItem) : Bool :=
  it.familyId == familyId && it.isActive &&
  (match q.category with | none => true | some c => it.category == c) &&
  (match q.search with | none => true | some s => containsCI it.name s)

/-- The `GET /inventory` handler: filter, sort, paginate; returns the
page of items and the total matching count. -/
def listItems (db : DB) (userId : String) (q : ListReq) :
    Except ApiError (List InventoryItem × Nat) :=
  if !validListReq q then .error .validation
  else
    match resolveMember db userId with
    | none => .error .notPartOfFamily
    | some fm =>
      let base := db.items.filter (listMatch fm.familyId q)
      let sorted := base.mergeSort (itemLe q.sortBy q.sortOrder)
      .ok ((sorted.drop ((q.page - 1) * q.limit)).take q.limit, base.length)

/-- Expiry classification of `InventoryScreen.getExpiryStatus`. -/
inductive ExpiryStatus where
  | fresh
  | expiring
  | expired
deriving DecidableEq

/-- `getExpiryStatus` from the inventory screen: no expiry date is
fresh; a negative day difference is expired; a difference of at most
two days is expiring; otherwise fresh.  The warning window is the
literal constant 2 in the source. -/
def getExpiryStatus (today : Int) (expiryDate : Option Int) : ExpiryStatus :=
  match expiryDate with
  | none => .fresh
  | some d =>
    let daysUntilExpiry := d - today
    if daysUntilExpiry < 0 then .expired
    else if daysUntilExpiry ≤ 2 then .expiring
    else .fresh

/-- Modelled from the spec: expiry classification parametrised by the
family's `expiryWarningDays` — no expiry date is fresh; a date strictly
before today is expired; `0 ≤ daysUntilExpiry ≤ expiryWarningDays` is
expiring; otherwise fresh. -/
def specExpiryStatus (today : Int) (expiryDate : Option Int)
    (expiryWarningDays : Int) : ExpiryStatus :=
  match expiryDate with
  | none => .fresh
  | some d =>
    if d < today then .expired
    else if d - today ≤ expiryWarningDays then .expiring
    else .fresh

/-- Modelled from the spec's reading of the update response: the set of
fields among quantity, expiryDate, name, category, notes whose stored
value actually changed between the row before and after the update. -/
def specChangedFields (before after : InventoryItem) : List String :=
  (if before.quantity == after.quantity then [] else ["quantity"]) ++
  (if before.expiryDate == after.expiryDate then [] else ["expiryDate"]) ++
  (if before.name == after.name then [] else ["name"]) ++
  (if before.category == after.category then [] else ["category"]) ++
  (if before.notes == after.notes then [] else ["notes"])

/-! ## Family Directory -/

/-- The `POST /families` handler: validation, AlreadyMember check on
any FamilyMember row of the caller, then atomic creation of the family
together with its owner member row.  The randomly generated invite code
and the fresh family id are passed in as parameters. -/
def createFamily (db : DB) (userId newFamilyId inviteCode name : String) :
    Except ApiError Family × DB :=
  if !(decide (1 ≤ name.length) && decide (name.length ≤ 100)) then (.error .validation, db)
  else
    match resolveMember db userId with
    | some _ => (.error .alreadyMember, db)
    | none =>
      let fam : Family :=
        { id := newFamilyId, name := name, inviteCode := inviteCode, ownerId := userId }
      (.ok fam,
       { db with families := db.families ++ [fam],
                 members := db.members ++
                   [{ familyId := newFamilyId, userId := userId,
                      role := "owner", isActive := true }] })

/-- The `POST /families/join` handler: validation, AlreadyMember check
on any FamilyMember row of the caller, invite-code lookup, then member
row creation with role member. -/
def joinFamily (db : DB) (userId inviteCode : String) :
    Except ApiError Family × DB :=
  if !(decide (inviteCode.length = 6)) then (.error .validation, db)
  else
    match resolveMember db userId with
    | some _ => (.error .alreadyMember, db)
    | none =>
      match db.families.find? (fun f => f.inviteCode == inviteCode) with
      | none => (.error .invalidInviteCode, db)
      | some fam =>
        (.ok fam,
         { db with members := db.members ++
             [{ familyId := fam.id, userId := userId,
                role := "member", isActive := true }] })

/-! ## Order Aggregator -/

/-- One entry of the `items` array of `POST /orders`. -/
structure OrderItemReq where
  inventoryItemId : Option String
  name : String
  quantity : Rat
  unit : Option String
  notes : Option String
deriving DecidableEq

/-- express-validator checks on one order item: non-empty name of at
most 200 characters and quantity at least 0.1. -/
def validOrderItemReq (it : OrderItemReq) : Bool :=
  decide (1 ≤ it.name.length) && decide (it.name.length ≤ 200) &&
  decide ((1 : Rat) / 10 ≤ it.quantity)

/-- Request body of `POST /orders`. -/
structure CreateOrderReq where
  merchantId : Option String
  items : List OrderItemReq
  notes : Option String
deriving DecidableEq

/-- express-validator checks on `POST /orders`: at least one item and
every item valid. -/
def validCreateOrderReq (r : CreateOrderReq) : Bool :=
  decide (1 ≤ r.items.length) && r.items.all validOrderItemReq

/-- Merchant validation of `POST /orders`: no merchant given, or an
active merchant with that id exists in the caller's family. -/
def merchantOk (db : DB) (familyId : String) (mid? : Option String) : Bool :=
  match mid? with
  | none => true
  | some mid =>
    (db.merchants.find? (fun m =>
      m.id == mid && m.familyId == familyId && m.isActive)).isSome

/-- The `POST /orders` handler: validation before any write, optional
merchant lookup scoped to the caller's family, then a single nested
create of the order with all of its items (names snapshotted from the
request). -/
def createOrder (db : DB) (userId newOrderId : String) (r : CreateOrderReq) (now : Nat) :
    Except ApiError Order × DB :=
  if !validCreateOrderReq r then (.error .validation, db)
  else
    match resolveMember db userId with
    | none => (.error .notPartOfFamily, db)
    | some fm =>
      if !merchantOk db fm.familyId r.merchantId then (.error .notFound, db)
      else
        let ord : Order :=
          { id := newOrderId, familyId := fm.familyId, merchantId := r.merchantId,
            status := "pending", notes := r.notes, createdBy := userId,
            items := r.items.map (fun it =>
              { name := it.name, quantity := it.quantity, unit := it.unit.getD "pieces",
                notes := it.notes, inventoryItemId := it.inventoryItemId }),
            createdAt := now, completedAt := none }
        (.ok ord, { db with orders := db.orders ++ [ord] })

/-! ## Notification Fan-out & Read Tracker -/

/-- The unread-count query of `GET /notifications`: family notifications
with no NotificationRead row for the user.  It is recomputed from the
rows on every call; nothing is stored. -/
def unreadCount (db : DB) (familyId userId : String) : Nat :=
  (db.notifs.filter (fun n =>
    n.familyId == familyId &&
    !(db.reads.any (fun rd => rd.notificationId == n.id && rd.userId == userId)))).length

/-- The update branch of the read upsert: re-stamp `readAt` on the row
keyed by the (notificationId, userId) pair, leaving other rows alone. -/
def stampRead (notificationId userId : String) (now : Nat)
    (rd : NotificationRead) : NotificationRead :=
  if rd.notificationId == notificationId && rd.userId == userId then
    { rd with readAt := now }
  else rd

/-- The `POST /notifications/:notificationId/read` handler: resolve the
caller's family, require the notification to exist in it, then upsert
the (notificationId, userId) read row with `readAt = now`.  The
notification's recipient list is never consulted. -/
def markRead (db : DB) (userId notificationId : String) (now : Nat) :
    Except ApiError Unit × DB :=
  match resolveMember db userId with
  | none => (.error .notPartOfFamily, db)
  | some fm =>
    match db.notifs.find? (fun x => x.id == notificationId && x.familyId == fm.familyId) with
    | none => (.error .notFound, db)
    | some _ =>
      if db.reads.any (fun rd => rd.notificationId == notificationId && rd.userId == userId) then
        (.ok (), { db with reads := db.reads.map (stampRead notificationId userId now) })
      else
        (.ok (), { db with reads := db.reads ++
            [{ notificationId := notificationId, userId := userId, readAt := now }] })

/-- The NotificationRead rows stored for one (notification, user) pair. -/
def pairReads (db : DB) (notificationId userId : String) : List NotificationRead :=
  db.reads.filter (fun rd => rd.notificationId == notificationId && rd.userId == userId)

/-- Replace every notification's recipient list according to `g`,
leaving every other column and table untouched. -/
def mapRecips (db : DB) (g : Notification → List String) : DB :=
  { db with notifs := db.notifs.map (fun n => { n with recipients := g n }) }

/-! ## Sample rows used by the witnesses -/

/-- Sample family. -/
def wFam : Family := { id := "f1", name := "Smiths", inviteCode := "ABC123", ownerId := "u1" }

/-- Sample membership of user u1 in family f1. -/
def wMem : FamilyMember := { familyId := "f1", userId := "u1", role := "owner", isActive := true }

/-- Sample membership of user u2 in family f1. -/
def wMem2 : FamilyMember := { familyId := "f1", userId := "u2", role := "member", isActive := true }

/-- Sample active inventory item of family f1. -/
def wItem : InventoryItem :=
  { id := "i1", familyId := "f1", name := "Milk", quantity := 5, unit := "pieces",
    category := "dairy", barcode := none, expiryDate := none, imageUrl := none,
    notes := none, addedBy := "u1", isActive := true, createdAt := 0, updatedAt := 0 }

/-- Sample notification of family f1 addressed to u2 only. -/
def wNotif : Notification :=
  { id := "n1", familyId := "f1", ntype := "custom", title := "T", message := "M",
    recipients := ["u2"], sentAt := 0 }

/-- Sample database with one family, two members, one item and one
notification. -/
def wDB : DB :=
  { families := [wFam], members := [wMem, wMem2], items := [wItem],
    merchants := [], orders := [], notifs := [wNotif], reads := [] }

/-- Sample add request whose name matches the sample item up to case. -/
def wReqMilk : AddItemReq :=
  { name := "milk", quantity := 2, unit := none, category := "dairy", barcode := none,
    expiryDate := none, imageUrl := none, notes := none }

/-! ## Claims -/

/-- C1: an addItem call on a family that already has an active item with
the same name up to case merges: it returns isDuplicate = true,
previousQuantity = the matched item's quantity before the increment, and
the stored row with that id gets its quantity incremented by the
incoming quantity with only updatedAt also touched; with no such item it
creates a new active item carrying the request's fields with the caller
as creator. -/
theorem C1_addItem_merge_or_create (db : DB) (userId newId : String) (r : AddItemReq)
    (now : Nat) (fm : FamilyMember)
    (hm : resolveMember db userId = some fm)
    (hv : validAddItemReq r = true) :
    (∀ ex, db.items.find? (dupMatch fm.familyId r.name) = some ex →
      (addItem db userId newId r now).1 =
        .ok ⟨{ ex with quantity := ex.quantity + r.quantity, updatedAt := now },
             true, ex.quantity⟩ ∧
      (addItem db userId newId r now).2.items =
        db.items.map (fun it => if it.id == ex.id then
          { it with quantity := ex.quantity + r.quantity, updatedAt := now } else it)) ∧
    (db.items.find? (dupMatch fm.familyId r.name) = none →
      ∃ item, (addItem db userId newId r now).1 = .ok ⟨item, false, 0⟩ ∧
        (addItem db userId newId r now).2.items = db.items ++ [item] ∧
        item.name = r.name ∧ item.quantity = r.quantity ∧ item.addedBy = userId ∧
        item.familyId = fm.familyId ∧ item.isActive = true ∧ item.category = r.category ∧
        item.unit = r.unit.getD "pieces" ∧ item.barcode = r.barcode ∧
        item.expiryDate = r.expiryDate ∧ item.imageUrl = r.imageUrl ∧
        item.notes = r.notes) := by
  constructor
  · intro ex hex
    constructor <;> simp [addItem, hv, hm, hex]
  · intro hnone
    simp only [addItem, hv, hm, hnone, Bool.not_true, Bool.false_eq_true, if_false]
    exact ⟨_, rfl, rfl, rfl, rfl, rfl, rfl, rfl, rfl, rfl, rfl, rfl, rfl, rfl⟩

/-- Witness for C1: adding "milk" to the sample database that already
holds an active "Milk" with quantity 5. -/
theorem C1_addItem_merge_or_create_witness :
    (resolveMember wDB "u1" = some wMem) ∧ (validAddItemReq wReqMilk = true) ∧
    ((∀ ex, wDB.items.find? (dupMatch wMem.familyId wReqMilk.name) = some ex →
      (addItem wDB "u1" "i2" wReqMilk 7).1 =
        .ok ⟨{ ex with quantity := ex.quantity + wReqMilk.quantity, updatedAt := 7 },
             true, ex.quantity⟩ ∧
      (addItem wDB "u1" "i2" wReqMilk 7).2.items =
        wDB.items.map (fun it => if it.id == ex.id then
          { it with quantity := ex.quantity + wReqMilk.quantity, updatedAt := 7 } else it)) ∧
    (wDB.items.find? (dupMatch wMem.familyId wReqMilk.name) = none →
      ∃ item, (addItem wDB "u1" "i2" wReqMilk 7).1 = .ok ⟨item, false, 0⟩ ∧
        (addItem wDB "u1" "i2" wReqMilk 7).2.items = wDB.items ++ [item] ∧
        item.name = wReqMilk.name ∧ item.quantity = wReqMilk.quantity ∧
        item.addedBy = "u1" ∧ item.familyId = wMem.familyId ∧ item.isActive = true ∧
        item.category = wReqMilk.category ∧ item.unit = wReqMilk.unit.getD "pieces" ∧
        item.barcode = wReqMilk.barcode ∧ item.expiryDate = wReqMilk.expiryDate ∧
        item.imageUrl = wReqMilk.imageUrl ∧ item.notes = wReqMilk.notes)) :=
  ⟨by decide, by decide,
   C1_addItem_merge_or_create wDB "u1" "i2" wReqMilk 7 wMem (by decide) (by decide)⟩

/-- Filtering is unchanged by a map that fixes every element satisfying
the predicate and never changes whether the predicate holds. -/
theorem filter_map_frame {α : Type} (l : List α) (f : α → α) (p : α → Bool)
    (h : ∀ a ∈ l, p (f a) = p a ∧ (p a = true → f a = a)) :
    (l.map f).filter p = l.filter p := by
  induction l with
  | nil => rfl
  | cons a t ih =>
    have ha := h a (List.mem_cons_self a t)
    have ht : ∀ x ∈ t, p (f x) = p x ∧ (p x = true → f x = x) :=
      fun x hx => h x (List.mem_cons_of_mem a hx)
    by_cases hpa : p a = true
    · simp [List.filter_cons, ha.1, hpa, ha.2 hpa, ih ht]
    · have hfa : p a = false := by simpa using hpa
      simp [List.filter_cons, ha.1, hfa, ih ht]

/-- C2: an addItem call scoped to the caller's family leaves the
inventory rows of every other family exactly as they were, whatever the
incoming name; the duplicate lookup and the write are both restricted to
the caller's family. -/
theorem C2_addItem_tenant_frame (db : DB) (userId newId : String) (r : AddItemReq)
    (now : Nat) (fm : FamilyMember) (B : String)
    (hm : resolveMember db userId = some fm)
    (hnd : (db.items.map (fun it => it.id)).Nodup)
    (hB : B ≠ fm.familyId) :
    (addItem db userId newId r now).2.items.filter (fun it => it.familyId == B) =
      db.items.filter (fun it => it.familyId == B) := by
  by_cases hv : validAddItemReq r = true
  · cases hfind : db.items.find? (dupMatch fm.familyId r.name) with
    | none =>
      have hfB : (fm.familyId == B) = false := by
        simp [Ne.symm hB]
      simp [addItem, hv, hm, hfind, List.filter_append, hfB]
    | some ex =>
      have hex_mem : ex ∈ db.items := List.mem_of_find?_eq_some hfind
      have hex_fam : ex.familyId = fm.familyId := by
        have := List.find?_some hfind
        simp [dupMatch] at this
        exact this.1.1
      simp only [addItem, hv, hm, hfind, Bool.not_true, Bool.false_eq_true, if_false]
      apply filter_map_frame
      intro a ha
      constructor
      · by_cases hid : (a.id == ex.id) = true <;> simp [hid]
      · intro hpa
        have haB : a.familyId = B := by simpa using hpa
        have hane : a ≠ ex := by
          intro hae
          exact hB (by rw [← haB, hae, hex_fam])
        have hid : (a.id == ex.id) = false := by
          rw [beq_eq_false_iff_ne]
          intro hide
          exact hane (List.inj_on_of_nodup_map hnd ha hex_mem hide)
        simp [hid]
  · simp [addItem, hv]

/-- Witness for C2: adding to family f1 leaves the (empty) f2 slice of
the item table untouched. -/
theorem C2_addItem_tenant_frame_witness :
    (resolveMember wDB "u1" = some wMem) ∧
    (wDB.items.map (fun it => it.id)).Nodup ∧ ("f2" ≠ wMem.familyId) ∧
    (addItem wDB "u1" "i2" wReqMilk 7).2.items.filter (fun it => it.familyId == "f2") =
      wDB.items.filter (fun it => it.familyId == "f2") :=
  ⟨by decide, by decide, by decide,
   C2_addItem_tenant_frame wDB "u1" "i2" wReqMilk 7 wMem "f2"
     (by decide) (by decide) (by decide)⟩

/-- Database whose only membership row is soft-deactivated. -/
def C3db : DB :=
  { families := [],
    members := [{ familyId := "f1", userId := "u1", role := "member", isActive := false }],
    items := [], merchants := [], orders := [], notifs := [], reads := [] }

/-- C3 counterexample: user u1 has no active FamilyMember row (the only
row is inactive), yet both createFamily and joinFamily still fail with
AlreadyMember — so the precondition checked by the code is the existence
of any FamilyMember row, not of an active one. -/
theorem C3_active_precondition_counterexample :
    (∀ m ∈ C3db.members, m.userId = "u1" → m.isActive = false) ∧
    (∃ m ∈ C3db.members, m.userId = "u1") ∧
    (createFamily C3db "u1" "f2" "XYZ789" "Browns").1 = .error .alreadyMember ∧
    (joinFamily C3db "u1" "ABC123").1 = .error .alreadyMember :=
  ⟨by decide, by decide, rfl, rfl⟩

/-- C3 (amended): for every user who has any FamilyMember row, active or
not, a createFamily or joinFamily call that passes input validation
fails with AlreadyMember regardless of the targeted family, and the
database is left completely unchanged. -/
theorem C3_alreadyMember_any_row (db : DB)
    (userId newFamilyId inviteCode name code : String)
    (hname : (decide (1 ≤ name.length) && decide (name.length ≤ 100)) = true)
    (hcode : code.length = 6)
    (hm : ∃ m ∈ db.members, m.userId = userId) :
    createFamily db userId newFamilyId inviteCode name = (.error .alreadyMember, db) ∧
    joinFamily db userId code = (.error .alreadyMember, db) := by
  have hfind : (db.members.find? (fun m => m.userId == userId)).isSome := by
    rw [List.find?_isSome]
    obtain ⟨m, hmem, he⟩ := hm
    exact ⟨m, hmem, by simp [he]⟩
  obtain ⟨m0, hm0⟩ := Option.isSome_iff_exists.mp hfind
  constructor
  · simp [createFamily, hname, resolveMember, hm0]
  · simp [joinFamily, hcode, resolveMember, hm0]

/-- Witness for the amended C3 on the database whose only membership row
is inactive. -/
theorem C3_alreadyMember_any_row_witness :
    ((decide (1 ≤ ("Browns" : String).length) &&
      decide (("Browns" : String).length ≤ 100)) = true) ∧
    (("ABC123" : String).length = 6) ∧
    (∃ m ∈ C3db.members, m.userId = "u1") ∧
    (createFamily C3db "u1" "f2" "XYZ789" "Browns" = (.error .alreadyMember, C3db) ∧
     joinFamily C3db "u1" "ABC123" = (.error .alreadyMember, C3db)) :=
  ⟨by decide, by decide, by decide,
   C3_alreadyMember_any_row C3db "u1" "f2" "XYZ789" "Browns" "ABC123"
     (by decide) (by decide) (by decide)⟩

/-- C4: a createOrder call with an empty items array is rejected by
validation with the database untouched; the invariant that every stored
order has at least one item is preserved by every call; and a successful
call appends the order together with all of its item rows in one step. -/
theorem C4_createOrder_no_empty_order (db : DB) (userId newOrderId : String)
    (r : CreateOrderReq) (now : Nat)
    (hinv : ∀ o ∈ db.orders, o.items ≠ []) :
    (r.items = [] → createOrder db userId newOrderId r now = (.error .validation, db)) ∧
    (∀ o ∈ (createOrder db userId newOrderId r now).2.orders, o.items ≠ []) ∧
    (∀ ok, (createOrder db userId newOrderId r now).1 = .ok ok →
      (createOrder db userId newOrderId r now).2.orders = db.orders ++ [ok] ∧
      ok.items.length = r.items.length ∧ ok.items ≠ []) := by
  by_cases hv : validCreateOrderReq r = true
  · have hne : r.items ≠ [] := by
      intro he
      rw [validCreateOrderReq, he] at hv
      simp at hv
    cases hm : resolveMember db userId with
    | none =>
      refine ⟨fun he => absurd he hne, ?_, ?_⟩ <;> simp [createOrder, hv, hm]
      exact hinv
    | some fm =>
      by_cases hmk : merchantOk db fm.familyId r.merchantId = true
      · have hmapne : r.items.map (fun it =>
            ({ name := it.name, quantity := it.quantity, unit := it.unit.getD "pieces",
               notes := it.notes, inventoryItemId := it.inventoryItemId } : OrderItem)) ≠ [] := by
          simpa using hne
        refine ⟨fun he => absurd he hne, ?_, ?_⟩
        · intro o ho
          simp only [createOrder, hv, hm, hmk, Bool.not_true, Bool.false_eq_true,
            if_false] at ho
          rcases List.mem_append.mp ho with h | h
          · exact hinv o h
          · have : o = _ := List.mem_singleton.mp h
            rw [this]
            simpa using hne
        · intro ok hok
          simp only [createOrder, hv, hm, hmk, Bool.not_true, Bool.false_eq_true,
            if_false] at hok ⊢
          cases hok
          refine ⟨rfl, by simp, hmapne⟩
      · have hmk' : merchantOk db fm.familyId r.merchantId = false := by
          simpa using hmk
        refine ⟨fun he => absurd he hne, ?_, ?_⟩ <;> simp [createOrder, hv, hm, hmk']
        exact hinv
  · have hv' : validCreateOrderReq r = false := by simpa using hv
    refine ⟨fun _ => by simp [createOrder, hv'], ?_, ?_⟩ <;> simp [createOrder, hv']
    exact hinv

/-- Sample one-item order request. -/
def wOrdReq : CreateOrderReq :=
  { merchantId := none,
    items := [{ inventoryItemId := none, name := "Eggs", quantity := 1,
                unit := none, notes := none }],
    notes := none }

/-- Witness for C4 on the sample database, which holds no orders. -/
theorem C4_createOrder_no_empty_order_witness :
    (∀ o ∈ wDB.orders, o.items ≠ []) ∧
    ((wOrdReq.items = [] →
      createOrder wDB "u1" "o1" wOrdReq 9 = (.error .validation, wDB)) ∧
    (∀ o ∈ (createOrder wDB "u1" "o1" wOrdReq 9).2.orders, o.items ≠ []) ∧
    (∀ ok, (createOrder wDB "u1" "o1" wOrdReq 9).1 = .ok ok →
      (createOrder wDB "u1" "o1" wOrdReq 9).2.orders = wDB.orders ++ [ok] ∧
      ok.items.length = wOrdReq.items.length ∧ ok.items ≠ [])) :=
  ⟨by decide, C4_createOrder_no_empty_order wDB "u1" "o1" wOrdReq 9 (by decide)⟩

/-- Dropping from a count the unique element with a given id lowers the
count by exactly one, provided that element satisfied the predicate. -/
theorem countP_drop_one {l : List Notification} {n : Notification} {p : Notification → Bool}
    (hn : n ∈ l) (hnd : (l.map (fun x => x.id)).Nodup) (hp : p n = true) :
    l.countP (fun x => p x && !(x.id == n.id)) + 1 = l.countP p := by
  induction l with
  | nil => cases hn
  | cons a t ih =>
    rw [List.map_cons, List.nodup_cons] at hnd
    rw [List.countP_cons, List.countP_cons]
    rcases List.mem_cons.mp hn with he | hnt
    · subst he
      have hfalse : (p n && !(n.id == n.id)) = false := by simp
      have hcongr : t.countP (fun x => p x && !(x.id == n.id)) = t.countP p := by
        apply List.countP_congr
        intro x hx
        have hxid : (x.id == n.id) = false := by
          rw [beq_eq_false_iff_ne]
          intro he2
          exact hnd.1 (he2 ▸ List.mem_map_of_mem (fun y => y.id) hx)
        simp [hxid]
      rw [hfalse, hp, hcongr]
      simp
    · have haid : (a.id == n.id) = false := by
        rw [beq_eq_false_iff_ne]
        intro he2
        exact hnd.1 (he2 ▸ List.mem_map_of_mem (fun y => y.id) hnt)
      have hrec := ih hnt hnd.2
      rw [haid]
      simp only [Bool.not_false, Bool.and_true]
      omega

/-- C5: unreadCount is exactly the number of the family's notifications
lacking a NotificationRead row for the user, recomputed from the rows;
when a member newly reads one of the family's notifications the count
drops by exactly one, and the count of every other user is unchanged. -/
theorem C5_unreadCount_behaviour (db : DB) (fm : FamilyMember) (u : String)
    (n : Notification) (now : Nat)
    (hm : resolveMember db u = some fm)
    (hn : n ∈ db.notifs)
    (hf : n.familyId = fm.familyId)
    (hnd : (db.notifs.map (fun x => x.id)).Nodup)
    (hr : ∀ rd ∈ db.reads, ¬(rd.notificationId = n.id ∧ rd.userId = u)) :
    (∀ f' u', unreadCount db f' u' =
      db.notifs.countP (fun x => decide (x.familyId = f' ∧
        ¬ ∃ rd ∈ db.reads, rd.notificationId = x.id ∧ rd.userId = u'))) ∧
    (markRead db u n.id now).1 = .ok () ∧
    unreadCount (markRead db u n.id now).2 fm.familyId u + 1 =
      unreadCount db fm.familyId u ∧
    (∀ u' f', u' ≠ u →
      unreadCount (markRead db u n.id now).2 f' u' = unreadCount db f' u') := by
  have hfinds : (db.notifs.find? (fun x => x.id == n.id && x.familyId == fm.familyId)).isSome := by
    rw [List.find?_isSome]
    exact ⟨n, hn, by simp [hf]⟩
  obtain ⟨n0, hn0⟩ := Option.isSome_iff_exists.mp hfinds
  have hany : db.reads.any (fun rd => rd.notificationId == n.id && rd.userId == u) = false := by
    rw [List.any_eq_false]
    intro rd hrd
    simp only [Bool.and_eq_true, beq_iff_eq]
    exact fun hcontra => hr rd hrd hcontra
  have hrow : markRead db u n.id now =
      (.ok (), { db with reads := db.reads ++
        [({ notificationId := n.id, userId := u, readAt := now } : NotificationRead)] }) := by
    simp [markRead, hm, hn0, hany]
  refine ⟨?_, by rw [hrow], ?_, ?_⟩
  · intro f' u'
    rw [unreadCount, ← List.countP_eq_length_filter]
    apply List.countP_congr
    intro x hx
    simp [List.any_eq_true]
  · rw [hrow]
    rw [unreadCount, unreadCount, ← List.countP_eq_length_filter,
      ← List.countP_eq_length_filter]
    have hcongr : ∀ x ∈ db.notifs,
        ((x.familyId == fm.familyId &&
          !((db.reads ++
            [({ notificationId := n.id, userId := u, readAt := now } : NotificationRead)]).any
            (fun rd => rd.notificationId == x.id && rd.userId == u))) = true ↔
        ((x.familyId == fm.familyId &&
          !(db.reads.any (fun rd => rd.notificationId == x.id && rd.userId == u))) &&
          !(x.id == n.id)) = true) := by
      intro x hx
      by_cases hxid : x.id = n.id
      · have h2 : (x.id == n.id) = true := by rw [beq_iff_eq]; exact hxid
        simp [List.any_append, hxid, h2]
      · have h1 : (n.id == x.id) = false := by
          rw [beq_eq_false_iff_ne]; exact Ne.symm hxid
        have h2 : (x.id == n.id) = false := by
          rw [beq_eq_false_iff_ne]; exact hxid
        simp [List.any_append, h1, h2]
    rw [List.countP_congr hcongr]
    apply countP_drop_one hn hnd
    simp [hf, hany]
  · intro u' f' hne
    rw [hrow]
    rw [unreadCount, unreadCount, ← List.countP_eq_length_filter,
      ← List.countP_eq_length_filter]
    apply List.countP_congr
    intro x hx
    have huu : (u == u') = false := by
      rw [beq_eq_false_iff_ne]
      exact fun he => hne he.symm
    simp [List.any_append, huu]

/-- Witness for C5: user u1 newly reads the sample notification. -/
theorem C5_unreadCount_behaviour_witness :
    (resolveMember wDB "u1" = some wMem) ∧ (wNotif ∈ wDB.notifs) ∧
    (wNotif.familyId = wMem.familyId) ∧
    (wDB.notifs.map (fun x => x.id)).Nodup ∧
    (∀ rd ∈ wDB.reads, ¬(rd.notificationId = wNotif.id ∧ rd.userId = "u1")) ∧
    ((∀ f' u', unreadCount wDB f' u' =
      wDB.notifs.countP (fun x => decide (x.familyId = f' ∧
        ¬ ∃ rd ∈ wDB.reads, rd.notificationId = x.id ∧ rd.userId = u'))) ∧
    (markRead wDB "u1" wNotif.id 5).1 = .ok () ∧
    unreadCount (markRead wDB "u1" wNotif.id 5).2 wMem.familyId "u1" + 1 =
      unreadCount wDB wMem.familyId "u1" ∧
    (∀ u' f', u' ≠ "u1" →
      unreadCount (markRead wDB "u1" wNotif.id 5).2 f' u' = unreadCount wDB f' u')) :=
  ⟨by decide, by decide, by decide, by decide, by decide,
   C5_unreadCount_behaviour wDB wMem "u1" wNotif 5
     (by decide) (by decide) (by decide) (by decide) (by decide)⟩

/-- Filtering the (notificationId, userId) pair out of a read list that
was just re-stamped by the upsert's update branch yields the filtered
originals re-stamped. -/
theorem pair_filter_map_upsert (l : List NotificationRead) (nid u : String) (t2 : Nat) :
    (l.map (stampRead nid u t2)).filter
      (fun rd => rd.notificationId == nid && rd.userId == u) =
    (l.filter (fun rd => rd.notificationId == nid && rd.userId == u)).map
      (fun rd => { rd with readAt := t2 }) := by
  induction l with
  | nil => rfl
  | cons a t ih =>
    by_cases hq : a.notificationId = nid ∧ a.userId = u
    · simp [stampRead, hq.1, hq.2, ih]
    · have hb' : (a.notificationId == nid && a.userId == u) = false := by
        cases h1 : (a.notificationId == nid) with
        | false => simp [h1]
        | true =>
          have he1 : a.notificationId = nid := by simpa using h1
          have h2 : (a.userId == u) = false := by
            rw [beq_eq_false_iff_ne]
            exact fun hu => hq ⟨he1, hu⟩
          simp [h2]
      simp [stampRead, hb', ih]

/-- C6: markRead is idempotent — from a state with no read row for the
pair, the first call succeeds and leaves exactly the one row for the
pair stamped with the first clock; the second call also succeeds and
leaves exactly the one row, now stamped with the second clock, never a
duplicate. -/
theorem C6_markRead_idempotent (db : DB) (fm : FamilyMember) (u nid : String) (t1 t2 : Nat)
    (hm : resolveMember db u = some fm)
    (hn : ∃ x ∈ db.notifs, x.id = nid ∧ x.familyId = fm.familyId)
    (h0 : pairReads db nid u = []) :
    (markRead db u nid t1).1 = .ok () ∧
    pairReads (markRead db u nid t1).2 nid u =
      [{ notificationId := nid, userId := u, readAt := t1 }] ∧
    (markRead (markRead db u nid t1).2 u nid t2).1 = .ok () ∧
    pairReads (markRead (markRead db u nid t1).2 u nid t2).2 nid u =
      [{ notificationId := nid, userId := u, readAt := t2 }] := by
  have hm' : db.members.find? (fun m => m.userId == u) = some fm := hm
  have hfinds : (db.notifs.find? (fun x => x.id == nid && x.familyId == fm.familyId)).isSome := by
    rw [List.find?_isSome]
    obtain ⟨x, hx, h1, h2⟩ := hn
    exact ⟨x, hx, by simp [h1, h2]⟩
  obtain ⟨n0, hn0⟩ := Option.isSome_iff_exists.mp hfinds
  have h0' : db.reads.filter
      (fun rd => rd.notificationId == nid && rd.userId == u) = [] := h0
  have hany1 : db.reads.any (fun rd => rd.notificationId == nid && rd.userId == u) = false := by
    rw [List.any_eq_false]
    exact List.filter_eq_nil_iff.mp h0'
  have hrow1 : markRead db u nid t1 =
      (.ok (), { db with reads := db.reads ++
        [({ notificationId := nid, userId := u, readAt := t1 } : NotificationRead)] }) := by
    simp [markRead, hm, hn0, hany1]
  have hpair1 : pairReads (markRead db u nid t1).2 nid u =
      [{ notificationId := nid, userId := u, readAt := t1 }] := by
    rw [hrow1, pairReads]
    rw [List.filter_append, h0']
    simp
  have hany2 : ((db.reads ++
      [({ notificationId := nid, userId := u, readAt := t1 } : NotificationRead)]).any
      (fun rd => rd.notificationId == nid && rd.userId == u)) = true := by
    simp [List.any_append]
  have hcall : markRead ({ db with reads := db.reads ++
      [({ notificationId := nid, userId := u, readAt := t1 } : NotificationRead)] }) u nid t2 =
      (.ok (), { db with reads := List.map (stampRead nid u t2) (db.reads ++
          [({ notificationId := nid, userId := u, readAt := t1 } : NotificationRead)]) }) := by
    simp [markRead, resolveMember, hm', hn0, hany2]
  refine ⟨by rw [hrow1], hpair1, ?_, ?_⟩
  · rw [hrow1]
    simp only [hcall]
  · rw [hrow1]
    simp only [hcall, pairReads]
    rw [pair_filter_map_upsert, List.filter_append, h0']
    simp

/-- Witness for C6: marking the sample notification read twice. -/
theorem C6_markRead_idempotent_witness :
    (resolveMember wDB "u1" = some wMem) ∧
    (∃ x ∈ wDB.notifs, x.id = "n1" ∧ x.familyId = wMem.familyId) ∧
    (pairReads wDB "n1" "u1" = []) ∧
    ((markRead wDB "u1" "n1" 3).1 = .ok () ∧
    pairReads (markRead wDB "u1" "n1" 3).2 "n1" "u1" =
      [{ notificationId := "n1", userId := "u1", readAt := 3 }] ∧
    (markRead (markRead wDB "u1" "n1" 3).2 "u1" "n1" 4).1 = .ok () ∧
    pairReads (markRead (markRead wDB "u1" "n1" 3).2 "u1" "n1" 4).2 "n1" "u1" =
      [{ notificationId := "n1", userId := "u1", readAt := 4 }]) :=
  ⟨by decide, by decide, by decide,
   C6_markRead_idempotent wDB wMem "u1" "n1" 3 4 (by decide) (by decide) (by decide)⟩

/-- C7: soft-deleted items never appear in a listItems page; updateItem
and deleteItem answer NotFound, leaving the state untouched, whenever no
active item with the requested id exists in the caller's family — which
covers a soft-deleted id and a wholly nonexistent id identically; and a
successful deleteItem only flips the row to inactive, never removing it. -/
theorem C7_soft_delete_semantics (db : DB) (fm : FamilyMember) (userId itemId : String)
    (q : ListReq) (r : UpdateItemReq) (now : Nat)
    (hm : resolveMember db userId = some fm)
    (hv : validUpdateItemReq r = true) :
    (∀ out, listItems db userId q = .ok out → ∀ it ∈ out.1, it.isActive = true) ∧
    ((¬ ∃ it ∈ db.items, it.id = itemId ∧ it.familyId = fm.familyId ∧ it.isActive = true) →
      updateItem db userId itemId r now = (.error .notFound, db) ∧
      deleteItem db userId itemId now = (.error .notFound, db)) ∧
    (∀ ex, db.items.find? (activeItemMatch fm.familyId itemId) = some ex →
      (deleteItem db userId itemId now).1 = .ok () ∧
      (deleteItem db userId itemId now).2.items =
        db.items.map (fun it => if it.id == itemId then
          { it with isActive := false, updatedAt := now } else it) ∧
      (deleteItem db userId itemId now).2.items.length = db.items.length ∧
      ∃ it' ∈ (deleteItem db userId itemId now).2.items,
        it'.id = ex.id ∧ it'.isActive = false) := by
  refine ⟨?_, ?_, ?_⟩
  · intro out hout it hit
    by_cases hvq : validListReq q = true
    · have hred : listItems db userId q =
          .ok (((db.items.filter (listMatch fm.familyId q)).mergeSort
              (itemLe q.sortBy q.sortOrder)).drop ((q.page - 1) * q.limit) |>.take q.limit,
            (db.items.filter (listMatch fm.familyId q)).length) := by
        simp [listItems, hvq, hm]
      rw [hred] at hout
      cases hout
      have h1 := List.take_subset _ _ hit
      have h2 := List.drop_subset _ _ h1
      have h3 := List.mem_mergeSort.mp h2
      have h4 := (List.mem_filter.mp h3).2
      simp only [listMatch, Bool.and_eq_true] at h4
      exact h4.1.1.2
    · have hvq' : validListReq q = false := by simpa using hvq
      simp [listItems, hvq'] at hout
  · intro hnone
    have hfn : db.items.find? (activeItemMatch fm.familyId itemId) = none := by
      rw [List.find?_eq_none]
      intro x hx hc
      apply hnone
      refine ⟨x, hx, ?_⟩
      have hc' : (x.id = itemId ∧ x.familyId = fm.familyId) ∧ x.isActive = true := by
        simpa [activeItemMatch] using hc
      exact ⟨hc'.1.1, hc'.1.2, hc'.2⟩
    constructor
    · simp [updateItem, hv, hm, hfn]
    · simp [deleteItem, hm, hfn]
  · intro ex hex
    have hexm := List.mem_of_find?_eq_some hex
    have hexp := List.find?_some hex
    simp only [activeItemMatch, Bool.and_eq_true, beq_iff_eq] at hexp
    refine ⟨by simp [deleteItem, hm, hex], by simp [deleteItem, hm, hex],
      by simp [deleteItem, hm, hex], ?_⟩
    refine ⟨{ ex with isActive := false, updatedAt := now }, ?_, rfl, rfl⟩
    have : (ex.id == itemId) = true := by simp [hexp.1.1]
    simp only [deleteItem, hm, hex]
    rw [List.mem_map]
    exact ⟨ex, hexm, by simp [this]⟩

/-- Sample valid list query. -/
def wListQ : ListReq :=
  { page := 1, limit := 20, category := none, search := none,
    sortBy := "name", sortOrder := "asc" }

/-- Sample update request providing no field. -/
def wUpd0 : UpdateItemReq :=
  { quantity := none, expiryDate := none, name := none, category := none, notes := none }

/-- Witness for C7: listing, updating and deleting against the sample
database, whose item i1 is active. -/
theorem C7_soft_delete_semantics_witness :
    (resolveMember wDB "u1" = some wMem) ∧ (validUpdateItemReq wUpd0 = true) ∧
    ((∀ out, listItems wDB "u1" wListQ = .ok out → ∀ it ∈ out.1, it.isActive = true) ∧
    ((¬ ∃ it ∈ wDB.items, it.id = "i1" ∧ it.familyId = wMem.familyId ∧ it.isActive = true) →
      updateItem wDB "u1" "i1" wUpd0 11 = (.error .notFound, wDB) ∧
      deleteItem wDB "u1" "i1" 11 = (.error .notFound, wDB)) ∧
    (∀ ex, wDB.items.find? (activeItemMatch wMem.familyId "i1") = some ex →
      (deleteItem wDB "u1" "i1" 11).1 = .ok () ∧
      (deleteItem wDB "u1" "i1" 11).2.items =
        wDB.items.map (fun it => if it.id == "i1" then
          { it with isActive := false, updatedAt := 11 } else it) ∧
      (deleteItem wDB "u1" "i1" 11).2.items.length = wDB.items.length ∧
      ∃ it' ∈ (deleteItem wDB "u1" "i1" 11).2.items,
        it'.id = ex.id ∧ it'.isActive = false)) :=
  ⟨by decide, by decide,
   C7_soft_delete_semantics wDB wMem "u1" "i1" wListQ wUpd0 11 (by decide) (by decide)⟩

/-- C8 counterexample: for a family whose expiryWarningDays is 3, the
spec formula classifies an item due in 3 days as expiring, but the
screen's classifier answers fresh — it hardcodes the window 2 and never
consults the family's setting. -/
theorem C8_warning_days_counterexample :
    getExpiryStatus 0 (some 3) = .fresh ∧
    specExpiryStatus 0 (some 3) 3 = .expiring ∧
    getExpiryStatus 0 (some 3) ≠ specExpiryStatus 0 (some 3) 3 := by
  refine ⟨rfl, rfl, ?_⟩
  intro h
  simp [getExpiryStatus, specExpiryStatus] at h

/-- C8 (amended): expiry classification is a pure function of today's
date and the item's expiry date with a fixed warning window of 2 days
(the default value of expiryWarningDays; the family's setting is not
consulted): no expiry date is fresh, a date strictly before today is
expired, a date within 0..2 days is expiring, otherwise fresh; in
particular an item expiring tomorrow is expiring and an item that
expired yesterday is expired. -/
theorem C8_expiry_classification (today : Int) (d : Option Int) :
    getExpiryStatus today d = specExpiryStatus today d 2 ∧
    getExpiryStatus today none = .fresh ∧
    getExpiryStatus today (some (today + 1)) = .expiring ∧
    getExpiryStatus today (some (today - 1)) = .expired := by
  refine ⟨?_, rfl, ?_, ?_⟩
  · cases d with
    | none => rfl
    | some x =>
      simp only [getExpiryStatus, specExpiryStatus]
      split_ifs <;> first | rfl | omega
  · simp only [getExpiryStatus]
    split_ifs <;> first | rfl | omega
  · simp only [getExpiryStatus]
    split_ifs <;> first | rfl | omega

/-- Update request re-sending the sample item's current quantity. -/
def C9req : UpdateItemReq :=
  { quantity := some 5, expiryDate := none, name := none, category := none, notes := none }

/-- C9 counterexample: updating item i1 (quantity 5) with quantity 5
reports updated = ["quantity"] although no field value actually changed
— the handler returns the fields provided, not the fields changed. -/
theorem C9_changed_fields_counterexample :
    (updateItem wDB "u1" "i1" C9req 10).1 =
      .ok ({ wItem with updatedAt := 10 }, ["quantity"]) ∧
    (updateItem wDB "u1" "i1" C9req 10).2.items = [{ wItem with updatedAt := 10 }] ∧
    specChangedFields wItem { wItem with updatedAt := 10 } = [] ∧
    (["quantity"] : List String) ≠ [] :=
  ⟨rfl, rfl, by decide, by decide⟩

/-- C9 (amended): updateItem answers NotFound and changes nothing when
the item is missing, inactive or in another family; on an active item of
the caller's family it writes exactly the provided fields among
quantity, expiryDate, name, category, notes, leaves every other column
unchanged, bumps updatedAt, and returns the list of fields provided in
the request — which may include fields whose new value equals the old
one. -/
theorem C9_updateItem_provided_fields (db : DB) (fm : FamilyMember)
    (userId itemId : String) (r : UpdateItemReq) (now : Nat)
    (hm : resolveMember db userId = some fm)
    (hv : validUpdateItemReq r = true) :
    ((¬ ∃ it ∈ db.items, it.id = itemId ∧ it.familyId = fm.familyId ∧ it.isActive = true) →
      updateItem db userId itemId r now = (.error .notFound, db)) ∧
    (∀ ex, db.items.find? (activeItemMatch fm.familyId itemId) = some ex →
      (updateItem db userId itemId r now).1 = .ok (applyUpd r now ex, updKeys r) ∧
      (updateItem db userId itemId r now).2.items =
        db.items.map (fun it => if it.id == itemId then applyUpd r now it else it) ∧
      (applyUpd r now ex).quantity =
        (match r.quantity with | some v => v | none => ex.quantity) ∧
      (applyUpd r now ex).expiryDate =
        (match r.expiryDate with | some v => v | none => ex.expiryDate) ∧
      (applyUpd r now ex).name = (match r.name with | some v => v | none => ex.name) ∧
      (applyUpd r now ex).category =
        (match r.category with | some v => v | none => ex.category) ∧
      (applyUpd r now ex).notes =
        (match r.notes with | some v => some v | none => ex.notes) ∧
      (applyUpd r now ex).updatedAt = now ∧
      (applyUpd r now ex).id = ex.id ∧
      (applyUpd r now ex).familyId = ex.familyId ∧
      (applyUpd r now ex).unit = ex.unit ∧
      (applyUpd r now ex).barcode = ex.barcode ∧
      (applyUpd r now ex).imageUrl = ex.imageUrl ∧
      (applyUpd r now ex).addedBy = ex.addedBy ∧
      (applyUpd r now ex).isActive = ex.isActive ∧
      (applyUpd r now ex).createdAt = ex.createdAt ∧
      updKeys r = (if r.quantity.isSome then ["quantity"] else []) ++
        (if r.expiryDate.isSome then ["expiryDate"] else []) ++
        (if r.name.isSome then ["name"] else []) ++
        (if r.category.isSome then ["category"] else []) ++
        (if r.notes.isSome then ["notes"] else [])) := by
  constructor
  · intro hnone
    have hfn : db.items.find? (activeItemMatch fm.familyId itemId) = none := by
      rw [List.find?_eq_none]
      intro x hx hc
      apply hnone
      refine ⟨x, hx, ?_⟩
      have hc' : (x.id = itemId ∧ x.familyId = fm.familyId) ∧ x.isActive = true := by
        simpa [activeItemMatch] using hc
      exact ⟨hc'.1.1, hc'.1.2, hc'.2⟩
    simp [updateItem, hv, hm, hfn]
  · intro ex hex
    refine ⟨by simp [updateItem, hv, hm, hex], by simp [updateItem, hv, hm, hex],
      ?_, ?_, ?_, ?_, ?_, rfl, rfl, rfl, rfl, rfl, rfl, rfl, rfl, rfl, rfl⟩
    · cases hk : r.quantity <;> simp [applyUpd, hk]
    · cases hk : r.expiryDate <;> simp [applyUpd, hk]
    · cases hk : r.name <;> simp [applyUpd, hk]
    · cases hk : r.category <;> simp [applyUpd, hk]
    · cases hk : r.notes <;> simp [applyUpd, hk]

/-- Witness for the amended C9: providing only quantity on the sample
item. -/
theorem C9_updateItem_provided_fields_witness :
    (resolveMember wDB "u1" = some wMem) ∧ (validUpdateItemReq C9req = true) ∧
    (((¬ ∃ it ∈ wDB.items, it.id = "i1" ∧ it.familyId = wMem.familyId ∧ it.isActive = true) →
      updateItem wDB "u1" "i1" C9req 10 = (.error .notFound, wDB)) ∧
    (∀ ex, wDB.items.find? (activeItemMatch wMem.familyId "i1") = some ex →
      (updateItem wDB "u1" "i1" C9req 10).1 = .ok (applyUpd C9req 10 ex, updKeys C9req) ∧
      (updateItem wDB "u1" "i1" C9req 10).2.items =
        wDB.items.map (fun it => if it.id == "i1" then applyUpd C9req 10 it else it) ∧
      (applyUpd C9req 10 ex).quantity =
        (match C9req.quantity with | some v => v | none => ex.quantity) ∧
      (applyUpd C9req 10 ex).expiryDate =
        (match C9req.expiryDate with | some v => v | none => ex.expiryDate) ∧
      (applyUpd C9req 10 ex).name =
        (match C9req.name with | some v => v | none => ex.name) ∧
      (applyUpd C9req 10 ex).category =
        (match C9req.category with | some v => v | none => ex.category) ∧
      (applyUpd C9req 10 ex).notes =
        (match C9req.notes with | some v => some v | none => ex.notes) ∧
      (applyUpd C9req 10 ex).updatedAt = 10 ∧
      (applyUpd C9req 10 ex).id = ex.id ∧
      (applyUpd C9req 10 ex).familyId = ex.familyId ∧
      (applyUpd C9req 10 ex).unit = ex.unit ∧
      (applyUpd C9req 10 ex).barcode = ex.barcode ∧
      (applyUpd C9req 10 ex).imageUrl = ex.imageUrl ∧
      (applyUpd C9req 10 ex).addedBy = ex.addedBy ∧
      (applyUpd C9req 10 ex).isActive = ex.isActive ∧
      (applyUpd C9req 10 ex).createdAt = ex.createdAt ∧
      updKeys C9req = (if C9req.quantity.isSome then ["quantity"] else []) ++
        (if C9req.expiryDate.isSome then ["expiryDate"] else []) ++
        (if C9req.name.isSome then ["name"] else []) ++
        (if C9req.category.isSome then ["category"] else []) ++
        (if C9req.notes.isSome then ["notes"] else []))) :=
  ⟨by decide, by decide,
   C9_updateItem_provided_fields wDB wMem "u1" "i1" C9req 10 (by decide) (by decide)⟩

/-- C10: the read-tracking operations never consult the notification's
recipient list — a family member who is not in the list still marks the
notification read successfully, the notification still counts as unread
for them, and rewriting every notification's recipient list arbitrarily
changes neither any unreadCount nor the outcome of markRead. -/
theorem C10_recipients_not_consulted (db : DB) (fm : FamilyMember) (u : String)
    (n : Notification) (now : Nat)
    (hm : resolveMember db u = some fm)
    (hn : n ∈ db.notifs)
    (hf : n.familyId = fm.familyId)
    (hrec : u ∉ n.recipients)
    (hr : ∀ rd ∈ db.reads, ¬(rd.notificationId = n.id ∧ rd.userId = u)) :
    (markRead db u n.id now).1 = .ok () ∧
    n ∈ db.notifs.filter (fun x => x.familyId == fm.familyId &&
      !(db.reads.any (fun rd => rd.notificationId == x.id && rd.userId == u))) ∧
    (∀ g f' u', unreadCount (mapRecips db g) f' u' = unreadCount db f' u') ∧
    (∀ g, (markRead (mapRecips db g) u n.id now).1 = .ok ()) := by
  have hm' : db.members.find? (fun m => m.userId == u) = some fm := hm
  have hfinds : (db.notifs.find? (fun x => x.id == n.id && x.familyId == fm.familyId)).isSome := by
    rw [List.find?_isSome]
    exact ⟨n, hn, by simp [hf]⟩
  obtain ⟨n0, hn0⟩ := Option.isSome_iff_exists.mp hfinds
  have hany : db.reads.any (fun rd => rd.notificationId == n.id && rd.userId == u) = false := by
    rw [List.any_eq_false]
    intro rd hrd
    simp only [Bool.and_eq_true, beq_iff_eq]
    exact fun hcontra => hr rd hrd hcontra
  refine ⟨by simp [markRead, hm, hn0, hany], ?_, ?_, ?_⟩
  · rw [List.mem_filter]
    exact ⟨hn, by simp [hf, hany]⟩
  · intro g f' u'
    rw [unreadCount, unreadCount, ← List.countP_eq_length_filter,
      ← List.countP_eq_length_filter]
    show ((db.notifs.map (fun x => { x with recipients := g x })).countP _) = _
    rw [List.countP_map]
    apply List.countP_congr
    intro x hx
    constructor <;> exact fun h => h
  · intro g
    have hfindg : ((mapRecips db g).notifs.find?
        (fun x => x.id == n.id && x.familyId == fm.familyId)).isSome := by
      rw [List.find?_isSome]
      refine ⟨{ n with recipients := g n }, ?_, by simp [hf]⟩
      exact List.mem_map_of_mem _ hn
    obtain ⟨n1, hn1⟩ := Option.isSome_iff_exists.mp hfindg
    have hn1' : List.find? (fun x => x.id == n.id && x.familyId == fm.familyId)
        (db.notifs.map (fun x => { x with recipients := g x })) = some n1 := hn1
    simp [markRead, resolveMember, mapRecips, hm', hany, hn1', -List.find?_map]

/-- Witness for C10: u1 is not among the sample notification's
recipients, yet read tracking treats u1 like any member. -/
theorem C10_recipients_not_consulted_witness :
    (resolveMember wDB "u1" = some wMem) ∧ (wNotif ∈ wDB.notifs) ∧
    (wNotif.familyId = wMem.familyId) ∧ ("u1" ∉ wNotif.recipients) ∧
    (∀ rd ∈ wDB.reads, ¬(rd.notificationId = wNotif.id ∧ rd.userId = "u1")) ∧
    ((markRead wDB "u1" wNotif.id 6).1 = .ok () ∧
    wNotif ∈ wDB.notifs.filter (fun x => x.familyId == wMem.familyId &&
      !(wDB.reads.any (fun rd => rd.notificationId == x.id && rd.userId == "u1"))) ∧
    (∀ g f' u', unreadCount (mapRecips wDB g) f' u' = unreadCount wDB f' u') ∧
    (∀ g, (markRead (mapRecips wDB g) "u1" wNotif.id 6).1 = .ok ())) :=
  ⟨by decide, by decide, by decide, by decide, by decide,
   C10_recipients_not_consulted wDB wMem "u1" wNotif 6
     (by decide) (by decide) (by decide) (by decide) (by decide)⟩

end Documentum
